import Mathlib

/-!
Verification of the hooka resilient dual-store data layer.

The definitions below are a shallow embedding of the TypeScript sources:
* the client data layer (`src/unnamed/part_001`): safe localStorage wrapper,
  bounded remote caller `callApi`, the `localStore` helpers and the `db`
  repository object;
* the stable-id derivation (`src/services/auth.ts`);
* the `sync-quota` action of the serverless handler
  (`src/netlify/functions/api.ts`).

Modelling conventions:
* JavaScript numbers that the code treats as integers (counters, timestamps,
  HTTP statuses) are embedded as `Int`/`Nat`;
* a value stored in localStorage under a JSON-carrying key is embedded as
  `JsonOf α`: `JsonOf.val a` stands for the string `JSON.stringify a`
  (which `JSON.parse` maps back to `a`), `JsonOf.corrupt` stands for any
  string on which `JSON.parse` throws.  The quota key is kept as a raw
  string because the code reads it back with `parseInt`;
* a browser storage access that may throw is a function into
  `Except String`, with the thrown exception as an explicit boolean
  "fault" argument; the `storage` wrapper catches exactly as the source does;
* a `callApi` invocation is represented by its outcome, passed to each
  repository operation as an explicit argument (`Option` of the typed
  response); theorem `C5` justifies collapsing every failure to `none`;
* each repository operation also returns the list of remote actions it
  issued, so that "best effort remote call" claims are observable.
-/

namespace Hooka

/-! ## Data model (src/types.ts) -/

/-- `NeuroScores` record (src/types.ts). -/
structure NeuroScores where
  patternInterrupt : Int
  emotionalIntensity : Int
  curiosityGap : Int
  scarcity : Int
deriving DecidableEq, Repr

/-- `ViralConcept` record (src/types.ts). -/
structure ViralConcept where
  hook : String
  script : String
  strategy : String
  scores : NeuroScores
  visualPrompt : String
deriving DecidableEq, Repr

/-- `MarketingBrief` record (src/types.ts); the optional NLP tuning fields
are omitted — no operation verified here reads them. -/
structure MarketingBrief where
  productContext : String
  targetAudience : String
  goal : String
  speaker : String
  language : String
deriving DecidableEq, Repr

/-- `UserProfile` record (src/types.ts). -/
structure UserProfile where
  id : String
  name : String
  brand : String
  email : String
  phone : Option String
  createdAt : Int
deriving DecidableEq, Repr

/-- `HistoryItem` record (src/types.ts). -/
structure HistoryItem where
  id : String
  timestamp : Int
  concepts : List ViralConcept
  brief : MarketingBrief
deriving DecidableEq, Repr

/-- `BriefProfile` record (src/types.ts). -/
structure BriefProfile where
  id : String
  name : String
  brief : MarketingBrief
deriving DecidableEq, Repr

/-- `UserQuota` record (src/types.ts). -/
structure UserQuota where
  usedGenerations : Int
  limit : Int
  isPremium : Bool
deriving DecidableEq, Repr

/-! ## Constants (src/unnamed/part_001) -/

/-- `API_TIMEOUT_MS = 5000` — timeout of the bounded remote caller. -/
def API_TIMEOUT_MS : Nat := 5000

/-- `MAX_LOCAL_HISTORY_ITEMS = 50`. -/
def MAX_LOCAL_HISTORY_ITEMS : Nat := 50

/-- `FREE_GENERATION_LIMIT = 10` (same constant on client and server). -/
def FREE_GENERATION_LIMIT : Int := 10

/-! ## Local storage and the safe `storage` wrapper -/

/-- A localStorage string holding JSON of type `α`: either the serialization
of a value (`val`) or a string `JSON.parse` rejects (`corrupt`). -/
inductive JsonOf (α : Type) where
  | corrupt : JsonOf α
  | val : α → JsonOf α
deriving DecidableEq, Repr

/-- The four localStorage slots used by the data layer (`LS_KEYS`):
user backup, history backup, profiles backup, and the raw quota counter. -/
structure Store where
  user : Option (JsonOf UserProfile)
  history : Option (JsonOf (List HistoryItem))
  profiles : Option (JsonOf (List BriefProfile))
  quota : Option String
deriving DecidableEq, Repr

/-- The store of a fresh client: every key absent. -/
def emptyStore : Store := ⟨none, none, none, none⟩

/-- `localStorage.getItem`: returns the slot content, or throws when the
browser denies access (`fault = true`). -/
def rawGetItem {α : Type} (fault : Bool) (slot : Option α) :
    Except String (Option α) :=
  if fault then Except.error ("SecurityError") else Except.ok slot

/-- `localStorage.setItem`: replaces the whole store by `updated`, or throws
(private mode / quota exceeded) when `fault = true`. -/
def rawSetItem (fault : Bool) (updated : Store) : Except String Store :=
  if fault then Except.error ("QuotaExceededError") else Except.ok updated

/-- `storage.get`: try/catch around `localStorage.getItem`, returning `null`
on any storage exception. -/
def storageGet {α : Type} (fault : Bool) (slot : Option α) : Option α :=
  match rawGetItem fault slot with
  | Except.error _ => none
  | Except.ok v => v

/-- `storage.set`: try/catch around `localStorage.setItem`; on a storage
exception the store is left as it was. -/
def storageSet (fault : Bool) (old updated : Store) : Store :=
  match rawSetItem fault updated with
  | Except.error _ => old
  | Except.ok s => s

/-! ## JavaScript number/string conversions

`getLocalQuotaCount` reads the quota key with `parseInt(stored, 10)` and
`incrementLocalQuotaCount` / `syncQuotaOnLogin` write it back with
`Number.prototype.toString`.  Both are modelled exactly on integer values:
decimal digits, optional sign, longest-digit-prefix parsing. -/

/-- Numeric value of a decimal digit character. -/
def digitVal (c : Char) : Nat := c.toNat - 48

/-- Value of a list of decimal digit characters (most significant first). -/
def decimalValue (cs : List Char) : Nat :=
  cs.foldl (fun a c => 10 * a + digitVal c) 0

/-- The whitespace characters `parseInt` skips (the ones relevant here). -/
def isJsSpace (c : Char) : Bool := c = ' ' || c = '\t' || c = '\n' || c = '\r'

/-- Longest decimal-digit prefix, `none` when there is no leading digit
(`parseInt` returns `NaN` there). -/
def parseDigitPrefix (cs : List Char) : Option Nat :=
  let ds := cs.takeWhile Char.isDigit
  if ds.isEmpty then none else some (decimalValue ds)

/-- `parseInt(s, 10)`: skip whitespace, optional sign, longest digit prefix;
`none` models `NaN` (an empty or sign-only or non-digit-leading input). -/
def jsParseInt (s : String) : Option Int :=
  let cs := s.toList.dropWhile isJsSpace
  if cs.head? = some '-' then
    (parseDigitPrefix cs.tail).map (fun n : Nat => -(n : Int))
  else if cs.head? = some '+' then
    (parseDigitPrefix cs.tail).map (fun n : Nat => (n : Int))
  else
    (parseDigitPrefix cs).map (fun n : Nat => (n : Int))

/-- Decimal digit characters of a natural number, most significant first. -/
def natToChars (n : Nat) : List Char :=
  if n < 10 then [Char.ofNat (48 + n)]
  else natToChars (n / 10) ++ [Char.ofNat (48 + n % 10)]
decreasing_by exact Nat.div_lt_self (by omega) (by omega)

/-- `Number.prototype.toString` on an integer value. -/
def jsNumToString (n : Int) : String :=
  if n < 0 then String.mk ('-' :: natToChars n.natAbs)
  else String.mk (natToChars n.natAbs)


/-! ## localStore helpers (src/unnamed/part_001)

Each helper takes the fault flag of every storage access it performs
(`rf` for a read, `wf` for a write). -/

/-- `localStore.saveUser`: `storage.set(LS_KEYS.USER, JSON.stringify(user))`. -/
def localSaveUser (u : UserProfile) (wf : Bool) (st : Store) : Store :=
  storageSet wf st { st with user := some (JsonOf.val u) }

/-- `localStore.getUser`: parse the backup, return it only when its `id`
matches; `null` on absence or a parse failure. -/
def localGetUser (id : String) (rf : Bool) (st : Store) : Option UserProfile :=
  match storageGet rf st.user with
  | none => none
  | some JsonOf.corrupt => none
  | some (JsonOf.val u) => if u.id = id then some u else none

/-- `localStore.getHistory`: parse the backup, `[]` on absence or failure. -/
def localGetHistory (rf : Bool) (st : Store) : List HistoryItem :=
  match storageGet rf st.history with
  | none => []
  | some JsonOf.corrupt => []
  | some (JsonOf.val l) => l

/-- The pure list update of `localStore.saveHistoryItem`:
`[item, ...current.filter(i => i.id !== item.id)].slice(0, MAX_LOCAL_HISTORY_ITEMS)`. -/
def histUpdate (item : HistoryItem) (current : List HistoryItem) :
    List HistoryItem :=
  (item :: current.filter (fun i => i.id != item.id)).take MAX_LOCAL_HISTORY_ITEMS

/-- `localStore.saveHistoryItem`: read, de-duplicate by id, trim, write. -/
def localSaveHistoryItem (item : HistoryItem) (rf wf : Bool) (st : Store) :
    Store :=
  let current := localGetHistory rf st
  let updated := histUpdate item current
  storageSet wf st { st with history := some (JsonOf.val updated) }

/-- `localStore.getProfiles`: parse the backup, `[]` on absence or failure. -/
def localGetProfiles (rf : Bool) (st : Store) : List BriefProfile :=
  match storageGet rf st.profiles with
  | none => []
  | some JsonOf.corrupt => []
  | some (JsonOf.val l) => l

/-- `localStore.saveProfile`: replace by id (no trim). -/
def localSaveProfile (profile : BriefProfile) (rf wf : Bool) (st : Store) :
    Store :=
  let current := localGetProfiles rf st
  let updated := profile :: current.filter (fun p => p.id != profile.id)
  storageSet wf st { st with profiles := some (JsonOf.val updated) }

/-- `localStore.deleteProfile`: remove by id. -/
def localDeleteProfile (id : String) (rf wf : Bool) (st : Store) : Store :=
  let current := localGetProfiles rf st
  let updated := current.filter (fun p => p.id != id)
  storageSet wf st { st with profiles := some (JsonOf.val updated) }

/-! ## Local quota helpers -/

/-- `db.getLocalQuotaCount`: `parseInt` of the stored counter; 0 when the
key is absent, empty (both falsy) or does not parse. -/
def getLocalQuotaCount (rf : Bool) (st : Store) : Int :=
  match storageGet rf st.quota with
  | none => 0
  | some stored =>
    if stored = "" then 0
    else match jsParseInt stored with
      | none => 0
      | some parsed => parsed

/-- `db.incrementLocalQuotaCount`: read-modify-write of the counter. -/
def incrementLocalQuotaCount (rf wf : Bool) (st : Store) : Store :=
  let current := getLocalQuotaCount rf st
  storageSet wf st { st with quota := some (jsNumToString (current + 1)) }

/-! ## The bounded remote caller `callApi` -/

/-- Outcome of the `fetch` inside `callApi`:
* `aborted` — the 5000 ms timer fired and the request was aborted;
* `networkError` — the transport failed;
* `response ok contentType body` — an HTTP response arrived; `ok` is
  `response.ok` (success status), `contentType` the `content-type` header
  (absent headers are `none`), and `body` the result of `response.json()`
  (`none` when the body is not parseable JSON, i.e. `json()` rejects). -/
inductive FetchOutcome (β : Type) where
  | aborted : FetchOutcome β
  | networkError : FetchOutcome β
  | response : Bool → Option String → Option β → FetchOutcome β

/-- Whether `pat` is a prefix of `cs` (character-wise). -/
def listPrefixOf : List Char → List Char → Bool
  | [], _ => true
  | _ :: _, [] => false
  | p :: ps, c :: cs => p == c && listPrefixOf ps cs

/-- Whether `pat` occurs somewhere in `hay`. -/
def listHasInfix (pat : List Char) : List Char → Bool
  | [] => pat.isEmpty
  | c :: t => listPrefixOf pat (c :: t) || listHasInfix pat t

/-- `s.indexOf(pat) !== -1`, i.e. `pat` occurs in `s`. -/
def containsSubstr (s pat : String) : Bool := listHasInfix pat.toList s.toList

/-- `callApi`: returns the parsed JSON body on a success-status JSON
response and `null` in every other case.  The `try/catch` of the source
catches the abort and transport rejections; the content-type test only
rejects a *present* non-JSON header. -/
def callApi {β : Type} (o : FetchOutcome β) : Option β :=
  match o with
  | FetchOutcome.aborted => none
  | FetchOutcome.networkError => none
  | FetchOutcome.response ok contentType body =>
    if !ok then none
    else match contentType with
      | some ct =>
        if containsSubstr ct ("application/json") = false then none else body
      | none => body

/-! ## The `db` repository (src/unnamed/part_001)

Each operation takes the outcomes of its remote calls as arguments and
returns `Except String (result × Store × List String)`; the `Except` layer
makes a thrown-and-unhandled exception representable (only
`createCheckoutSession` ever uses it), and the final list records which
remote actions the operation issued. -/

/-- Result triple of a repository operation. -/
abbrev DbRes (α : Type) : Type := Except String (α × Store × List String)

/-- JavaScript truthiness of an optional string argument
(`undefined` and the empty string are falsy). -/
def jsTruthyStr : Option String → Bool
  | none => false
  | some s => s != ""

/-- `db.init`: fire-and-forget `init-db` call, no local effect. -/
def dbInit (st : Store) : DbRes Unit :=
  Except.ok ((), st, ["init-db"])

/-- `db.logEvent`: fire-and-forget `log-analytics` call, no local effect. -/
def dbLogEvent (st : Store) : DbRes Unit :=
  Except.ok ((), st, ["log-analytics"])

/-- `db.saveUser`: local write first, then best-effort `save-user`. -/
def dbSaveUser (u : UserProfile) (remote : Option Unit) (wf : Bool)
    (st : Store) : DbRes Unit :=
  Except.ok ((), localSaveUser u wf st, ["save-user"])

/-- `db.getUser`: cloud first (mirroring a hit into the local backup),
local fallback otherwise. -/
def dbGetUser (id : String) (remote : Option UserProfile) (rf wf : Bool)
    (st : Store) : DbRes (Option UserProfile) :=
  match remote with
  | some u => Except.ok (some u, localSaveUser u wf st, ["get-user"])
  | none => Except.ok (localGetUser id rf st, st, ["get-user"])

/-- A JSON response that is expected to be an array: either an array of
properly-shaped elements or some other JSON value (`Array.isArray` false). -/
inductive RemoteList (α : Type) where
  | arr : List α → RemoteList α
  | notArray : RemoteList α

/-- `db.getHistory`: a non-empty remote array overwrites the local mirror
and is returned; anything else falls back to the untouched local snapshot. -/
def dbGetHistory (remote : Option (RemoteList HistoryItem)) (rf wf : Bool)
    (st : Store) : DbRes (List HistoryItem) :=
  match remote with
  | some (RemoteList.arr l) =>
    if l.length > 0 then
      Except.ok (l, storageSet wf st { st with history := some (JsonOf.val l) },
        ["get-history"])
    else Except.ok (localGetHistory rf st, st, ["get-history"])
  | some RemoteList.notArray =>
    Except.ok (localGetHistory rf st, st, ["get-history"])
  | none => Except.ok (localGetHistory rf st, st, ["get-history"])

/-- `db.saveHistoryItem`: local write first, then best-effort `save-history`. -/
def dbSaveHistoryItem (item : HistoryItem) (remote : Option Unit)
    (rf wf : Bool) (st : Store) : DbRes Unit :=
  Except.ok ((), localSaveHistoryItem item rf wf st, ["save-history"])

/-- `db.getProfiles`: same read-through policy as `db.getHistory`. -/
def dbGetProfiles (remote : Option (RemoteList BriefProfile)) (rf wf : Bool)
    (st : Store) : DbRes (List BriefProfile) :=
  match remote with
  | some (RemoteList.arr l) =>
    if l.length > 0 then
      Except.ok (l, storageSet wf st { st with profiles := some (JsonOf.val l) },
        ["get-profiles"])
    else Except.ok (localGetProfiles rf st, st, ["get-profiles"])
  | some RemoteList.notArray =>
    Except.ok (localGetProfiles rf st, st, ["get-profiles"])
  | none => Except.ok (localGetProfiles rf st, st, ["get-profiles"])

/-- `db.saveProfile`: local write first, then best-effort `save-profile`. -/
def dbSaveProfile (profile : BriefProfile) (remote : Option Unit)
    (rf wf : Bool) (st : Store) : DbRes Unit :=
  Except.ok ((), localSaveProfile profile rf wf st, ["save-profile"])

/-- `db.deleteProfile`: local delete first, then best-effort `delete-profile`. -/
def dbDeleteProfile (id : String) (remote : Option Unit) (rf wf : Bool)
    (st : Store) : DbRes Unit :=
  Except.ok ((), localDeleteProfile id rf wf st, ["delete-profile"])

/-- `db.getQuota`: for a (truthy) logged-in user try `get-quota` and return
a hit verbatim; otherwise the local counter with the free limit. -/
def dbGetQuota (userId : Option String) (remote : Option UserQuota)
    (rf : Bool) (st : Store) : DbRes UserQuota :=
  if jsTruthyStr userId then
    match remote with
    | some result => Except.ok (result, st, ["get-quota"])
    | none =>
      Except.ok (⟨getLocalQuotaCount rf st, FREE_GENERATION_LIMIT, false⟩,
        st, ["get-quota"])
  else
    Except.ok (⟨getLocalQuotaCount rf st, FREE_GENERATION_LIMIT, false⟩,
      st, [])

/-- `db.canGenerate`: premium short-circuits, otherwise `used < limit`. -/
def dbCanGenerate (userId : Option String) (remote : Option UserQuota)
    (rf : Bool) (st : Store) : DbRes Bool :=
  match dbGetQuota userId remote rf st with
  | Except.error e => Except.error e
  | Except.ok (quota, st1, tr) =>
    if quota.isPremium then Except.ok (true, st1, tr)
    else Except.ok (decide (quota.usedGenerations < quota.limit), st1, tr)

/-- `db.incrementQuota`: always increment the local counter; issue the
remote `increment-quota` only for a truthy `userId` (its outcome is
ignored). -/
def dbIncrementQuota (userId : Option String) (remote : Option Unit)
    (rf wf : Bool) (st : Store) : DbRes Unit :=
  Except.ok ((), incrementLocalQuotaCount rf wf st,
    if jsTruthyStr userId then ["increment-quota"] else [])

/-- `db.syncQuotaOnLogin`: send the local counter; on a response mirror the
synced value into the counter and return the response; on API failure fall
back to a quota object built from the local counter alone. -/
def dbSyncQuotaOnLogin (userId : String) (remote : Option UserQuota)
    (rf wf : Bool) (st : Store) : DbRes UserQuota :=
  let localCount := getLocalQuotaCount rf st
  match remote with
  | some result =>
    Except.ok (result,
      storageSet wf st
        { st with quota := some (jsNumToString result.usedGenerations) },
      ["sync-quota"])
  | none =>
    Except.ok (⟨localCount, FREE_GENERATION_LIMIT, false⟩, st, ["sync-quota"])

/-- Parsed JSON body of a checkout response (`data.error`, `data.url`). -/
structure CheckoutBody where
  error : Option String
  url : Option String
deriving DecidableEq, Repr

/-- Outcome of the raw `fetch` in `db.createCheckoutSession`: the fetch may
reject, or yield a response whose `json()` either rejects or produces a
body. -/
inductive CheckoutFetch where
  | throws : String → CheckoutFetch
  | resp : Bool → Nat → Except String CheckoutBody → CheckoutFetch

/-- JavaScript `a || b` on an optional string against a default
(`undefined` and `""` are falsy). -/
def jsOrDefault (o : Option String) (d : String) : String :=
  match o with
  | some s => if s = "" then d else s
  | none => d

/-- JavaScript `a || null` on an optional string. -/
def jsOrNull (o : Option String) : Option String :=
  match o with
  | some s => if s = "" then none else some s
  | none => none

/-- `db.createCheckoutSession`: parses the body, throws the API error
message on a non-ok status (default `Checkout failed (<status>)`), rethrows
any transport or parse exception, and on success returns `data.url || null`.
This is the one repository operation whose rejection escapes. -/
def dbCreateCheckoutSession (f : CheckoutFetch) (st : Store) :
    DbRes (Option String) :=
  match f with
  | CheckoutFetch.throws msg => Except.error msg
  | CheckoutFetch.resp ok status body =>
    match body with
    | Except.error msg => Except.error msg
    | Except.ok data =>
      if ok = false then
        Except.error
          (jsOrDefault data.error ("Checkout failed (" ++ toString status ++ ")"))
      else
        Except.ok (jsOrNull data.url, st, ["create-checkout"])

/-- Body of a `check-subscription` response. -/
structure SubscriptionStatus where
  isPremium : Bool
deriving DecidableEq, Repr

/-- `db.checkSubscription`: `result?.isPremium || false`. -/
def dbCheckSubscription (remote : Option SubscriptionStatus) (st : Store) :
    DbRes Bool :=
  match remote with
  | some result => Except.ok (result.isPremium, st, ["check-subscription"])
  | none => Except.ok (false, st, ["check-subscription"])

/-! ## Server side: the `sync-quota` action (src/netlify/functions/api.ts)

The `hypeakz_quotas` table is embedded as a map from `user_id` to its row
(the Stripe columns are omitted: only the webhook paths touch them). -/

/-- A row of `hypeakz_quotas`. -/
structure QuotaRow where
  used_generations : Int
  is_premium : Bool
  created_at : Int
deriving DecidableEq, Repr

/-- The quota table, keyed by `user_id`. -/
abbrev QuotaDB := String → Option QuotaRow

/-- SQL upsert of a single row. -/
def quotaDbSet (q : QuotaDB) (userId : String) (row : QuotaRow) : QuotaDB :=
  fun v => if v = userId then some row else q v

/-- The `sync-quota` case of the serverless handler, assuming the database
is reachable.  A falsy `userId` hits the guard and leaves `result` at its
initial `{success: true}` value, modelled as `none`; otherwise a missing
row is created from `localCount`, and an existing row is merged with
`max` (writing back only when the maximum exceeds the stored count). -/
def syncQuotaAction (q : QuotaDB) (userId : String) (localCount : Int)
    (now : Int) : QuotaDB × Option UserQuota :=
  if userId = "" then (q, none)
  else
    match q userId with
    | none =>
      (quotaDbSet q userId ⟨localCount, false, now⟩,
        some ⟨localCount, FREE_GENERATION_LIMIT, false⟩)
    | some row =>
      let dbCount := row.used_generations
      let isPremium := row.is_premium
      let finalCount := max dbCount localCount
      let q1 := if finalCount > dbCount then
          quotaDbSet q userId { row with used_generations := finalCount }
        else q
      (q1, some ⟨finalCount, FREE_GENERATION_LIMIT, isPremium⟩)

/-! ## Stable id derivation (src/services/auth.ts) -/

/-- `substring(0, 12)`: the first 12 characters of a string (all of it when
shorter). -/
def jsSubstring12 (s : String) : String := String.mk (s.toList.take 12)

/-- `generateStableId`: `` `${provider}-${netlifyUserId.substring(0, 12)}` ``. -/
def generateStableId (netlifyUserId : String) (provider : String) : String :=
  provider ++ "-" ++ jsSubstring12 netlifyUserId

/-! ## Derived forms used by the claim statements -/

/-- The spec's presence condition on the content-type header, following its
words: "the core treats a response as present only if content-type is JSON"
(so an absent header is not a JSON content-type).  Used to compare the spec
against `callApi`. -/
def specContentTypeIsJson : Option String → Bool
  | none => false
  | some ct => containsSubstr ct ("application/json")

/-- The store transformation of one anonymous, fault-free
`db.incrementQuota` call. -/
def anonIncrementStep (st : Store) : Store :=
  match dbIncrementQuota none none false false st with
  | Except.ok (_, st1, _) => st1
  | Except.error _ => st

/-- The store after a fault-free sequence of `saveHistoryItem` calls. -/
def histAfter (items : List HistoryItem) (st : Store) : Store :=
  items.foldl (fun s item => localSaveHistoryItem item false false s) st

/-- The list-level fold corresponding to `histAfter`. -/
def histFold (items : List HistoryItem) (cur : List HistoryItem) :
    List HistoryItem :=
  items.foldl (fun c item => histUpdate item c) cur

/-- A concrete history item (used to instantiate universally quantified
claims on explicit inputs). -/
def sampleItem (id : String) (ts : Int) : HistoryItem :=
  ⟨id, ts, [], ⟨"", "", "", "", ""⟩⟩

/-- 51 history items with pairwise distinct ids and strictly increasing
timestamps. -/
def fiftyOneItems : List HistoryItem :=
  (List.range 51).map (fun j => sampleItem (toString j) (j : Int))

/-- A concrete user profile for instantiating claims. -/
def sampleUser : UserProfile := ⟨"google-abc", "A", "", "a@b.c", none, 0⟩

/-- A concrete quota table with a single row, for instantiating claims. -/
def sampleQuotaDb : QuotaDB :=
  fun v => if v = ("google-x") then some ⟨7, false, 0⟩ else none

/-! # Theorems

Helper lemmas first, then one theorem (plus witness / counterexample) per
claim. -/

theorem storageGet_false {α : Type} (slot : Option α) :
    storageGet false slot = slot := rfl

theorem storageGet_true {α : Type} (slot : Option α) :
    storageGet true slot = none := rfl

theorem storageSet_false (old updated : Store) :
    storageSet false old updated = updated := rfl

theorem storageSet_true (old updated : Store) :
    storageSet true old updated = old := rfl

theorem digit_char_spec (d : Nat) (hd : d < 10) :
    (Char.ofNat (48 + d)).isDigit = true ∧
    digitVal (Char.ofNat (48 + d)) = d ∧
    isJsSpace (Char.ofNat (48 + d)) = false ∧
    Char.ofNat (48 + d) ≠ '-' ∧ Char.ofNat (48 + d) ≠ '+' := by
  interval_cases d <;> exact ⟨rfl, rfl, rfl, by decide, by decide⟩

theorem natToChars_mem (n : Nat) :
    ∀ c ∈ natToChars n, ∃ d, d < 10 ∧ c = Char.ofNat (48 + d) := by
  induction n using natToChars.induct with
  | case1 n h =>
    intro c hc
    rw [natToChars, if_pos h] at hc
    simp only [List.mem_singleton] at hc
    exact ⟨n, h, hc⟩
  | case2 n h ih =>
    intro c hc
    rw [natToChars, if_neg h] at hc
    rcases List.mem_append.mp hc with h1 | h2
    · exact ih c h1
    · simp only [List.mem_singleton] at h2
      exact ⟨n % 10, Nat.mod_lt _ (by omega), h2⟩

theorem natToChars_ne_nil (n : Nat) : natToChars n ≠ [] := by
  rw [natToChars]
  split <;> simp

theorem natToChars_all_digits (n : Nat) :
    ∀ c ∈ natToChars n, c.isDigit = true := by
  intro c hc
  obtain ⟨d, hd, rfl⟩ := natToChars_mem n c hc
  exact (digit_char_spec d hd).1

theorem decimalValue_natToChars (n : Nat) :
    decimalValue (natToChars n) = n := by
  induction n using natToChars.induct with
  | case1 n h =>
    rw [natToChars, if_pos h]
    simp [decimalValue, (digit_char_spec n h).2.1]
  | case2 n h ih =>
    rw [natToChars, if_neg h]
    unfold decimalValue at ih ⊢
    rw [List.foldl_append, ih]
    simp only [List.foldl_cons, List.foldl_nil,
      (digit_char_spec (n % 10) (Nat.mod_lt _ (by omega))).2.1]
    omega

theorem parseDigitPrefix_natToChars (n : Nat) :
    parseDigitPrefix (natToChars n) = some n := by
  unfold parseDigitPrefix
  rw [List.takeWhile_eq_self_iff.mpr (natToChars_all_digits n)]
  rw [if_neg (by simpa [List.isEmpty_iff] using natToChars_ne_nil n)]
  rw [decimalValue_natToChars]

theorem jsParseInt_jsNumToString (n : Int) :
    jsParseInt (jsNumToString n) = some n := by
  unfold jsNumToString
  by_cases hn : n < 0
  · rw [if_pos hn]
    unfold jsParseInt
    have hdata : (String.mk ('-' :: natToChars n.natAbs)).toList
        = '-' :: natToChars n.natAbs := rfl
    rw [hdata]
    have hsp : ¬(isJsSpace '-' = true) := by decide
    rw [List.dropWhile_cons, if_neg hsp]
    simp only [List.head?_cons, List.tail_cons, if_true]
    rw [parseDigitPrefix_natToChars]
    simp only [Option.map_some']
    congr 1
    omega
  · rw [if_neg hn]
    have hne := natToChars_ne_nil n.natAbs
    obtain ⟨c, cs, hcons⟩ := List.exists_cons_of_ne_nil hne
    obtain ⟨d, hd, hc⟩ := natToChars_mem n.natAbs c (by rw [hcons]; simp)
    subst hc
    have hspec := digit_char_spec d hd
    have hsp : ¬(isJsSpace (Char.ofNat (48 + d)) = true) := by
      rw [hspec.2.2.1]; simp
    have hm : (some (Char.ofNat (48 + d)) : Option Char) ≠ some '-' := by
      simpa using hspec.2.2.2.1
    have hp : (some (Char.ofNat (48 + d)) : Option Char) ≠ some '+' := by
      simpa using hspec.2.2.2.2
    unfold jsParseInt
    have hdata : (String.mk (natToChars n.natAbs)).toList
        = natToChars n.natAbs := rfl
    rw [hdata, hcons]
    rw [List.dropWhile_cons, if_neg hsp]
    simp only [List.head?_cons]
    rw [if_neg hm, if_neg hp]
    rw [← hcons, parseDigitPrefix_natToChars]
    simp only [Option.map_some']
    congr 1
    omega

theorem jsNumToString_ne_empty (n : Int) : jsNumToString n ≠ "" := by
  unfold jsNumToString
  have hne := natToChars_ne_nil n.natAbs
  split <;> · intro h
              apply hne
              have h2 := congrArg String.toList h
              revert h2
              cases natToChars n.natAbs <;> simp [String.toList]

theorem localGetUser_spec (id : String) (rf : Bool) (st : Store)
    (u : UserProfile) :
    localGetUser id rf st = some u
      ↔ (storageGet rf st.user = some (JsonOf.val u) ∧ u.id = id) := by
  cases rf
  · rw [storageGet_false]
    match h : st.user with
    | none =>
      have hred : localGetUser id false st = none := by
        unfold localGetUser
        rw [storageGet_false, h]
      rw [hred]
      simp
    | some JsonOf.corrupt =>
      have hred : localGetUser id false st = none := by
        unfold localGetUser
        rw [storageGet_false, h]
      rw [hred]
      simp
    | some (JsonOf.val w) =>
      have hred : localGetUser id false st
          = if w.id = id then some w else none := by
        unfold localGetUser
        rw [storageGet_false, h]
      rw [hred]
      by_cases hw : w.id = id
      · rw [if_pos hw]
        constructor
        · intro he
          injection he with he
          subst he
          exact ⟨rfl, hw⟩
        · intro hand
          obtain ⟨h1, _⟩ := hand
          injection h1 with h1
          injection h1 with h1
          rw [h1]
      · rw [if_neg hw]
        constructor
        · intro he
          exact absurd he (by simp)
        · intro hand
          obtain ⟨h1, h2⟩ := hand
          injection h1 with h1
          injection h1 with h1
          exact absurd (h1 ▸ h2) hw
  · have hred : localGetUser id true st = none := by
      unfold localGetUser
      rw [storageGet_true]
    rw [hred, storageGet_true]
    simp

/-- C5 (corrected): the bounded remote caller resolves to `null` on an
abort (timeout), a transport error, a non-success status, or a *present*
content-type header that does not contain `application/json`; it returns
data only for a success status whose body parses as JSON and whose
content-type header, when present, contains `application/json`. -/
theorem C5_callApi_presence :
    (∀ (β : Type), callApi (FetchOutcome.aborted : FetchOutcome β) = none)
    ∧ (∀ (β : Type), callApi (FetchOutcome.networkError : FetchOutcome β) = none)
    ∧ (∀ (β : Type) (ct : Option String) (body : Option β),
        callApi (FetchOutcome.response false ct body) = none)
    ∧ (∀ (β : Type) (ok : Bool) (ct : String) (body : Option β),
        containsSubstr ct ("application/json") = false →
        callApi (FetchOutcome.response ok (some ct) body) = none)
    ∧ (∀ (β : Type) (o : FetchOutcome β) (x : β),
        callApi o = some x →
        ∃ ok ct body, o = FetchOutcome.response ok ct body
          ∧ ok = true ∧ body = some x
          ∧ (∀ ctv, ct = some ctv →
              containsSubstr ctv ("application/json") = true)) := by
  refine ⟨fun β => rfl, fun β => rfl, fun β ct body => rfl, ?_, ?_⟩
  · intro β ok ct body h
    cases ok
    · rfl
    · show (if containsSubstr ct ("application/json") = false then none
          else body) = none
      rw [h, if_pos rfl]
  · intro β o x h
    match o with
    | FetchOutcome.aborted => exact absurd h (by simp [callApi])
    | FetchOutcome.networkError => exact absurd h (by simp [callApi])
    | FetchOutcome.response ok ct body =>
      cases ok
      · have h2 : (none : Option β) = some x := h
        exact absurd h2 (by simp)
      · match ct with
        | none =>
          have h2 : body = some x := h
          refine ⟨true, none, body, rfl, rfl, h2, ?_⟩
          intro ctv hctv
          exact absurd hctv (by simp)
        | some ctv =>
          have h2 : (if containsSubstr ctv ("application/json") = false
              then none else body) = some x := h
          by_cases hct : containsSubstr ctv ("application/json") = false
          · rw [if_pos hct] at h2
            exact absurd h2 (by simp)
          · rw [if_neg hct] at h2
            refine ⟨true, some ctv, body, rfl, rfl, h2, ?_⟩
            intro c hc
            injection hc with hc
            subst hc
            simpa using hct

/-- C5 counterexample: a success response with *no* content-type header and
a valid JSON body is returned as present, although an absent header is not
a JSON content-type — refuting "non-null only if the content-type is
JSON". -/
theorem C5_counterexample_absent_content_type :
    callApi (FetchOutcome.response true none (some (0 : Nat))) = some 0
    ∧ specContentTypeIsJson none = false := ⟨rfl, rfl⟩

theorem C5_callApi_presence_witness :
    containsSubstr ("text/html") ("application/json") = false
    ∧ callApi (FetchOutcome.response true (some ("text/html"))
        (some (1 : Nat))) = none :=
  ⟨by decide,
    C5_callApi_presence.2.2.2.1 Nat true ("text/html") (some 1) (by decide)⟩

/-- C2: `canGenerate` is true iff the quota record returned by `getQuota`
is premium or has `usedGenerations < limit`; premium short-circuits the
numeric check (999/10 still true), and a non-premium user at or above the
limit is refused (10/10 false, 9/10 true). -/
theorem C2_canGenerate_iff :
    (∀ (userId : Option String) (remote : Option UserQuota) (rf : Bool)
      (st : Store) (q : UserQuota) (st1 : Store) (tr : List String),
      dbGetQuota userId remote rf st = Except.ok (q, st1, tr) →
      (dbCanGenerate userId remote rf st
          = Except.ok (q.isPremium || decide (q.usedGenerations < q.limit),
              st1, tr)
        ∧ (dbCanGenerate userId remote rf st = Except.ok (true, st1, tr)
            ↔ (q.isPremium = true ∨ q.usedGenerations < q.limit))))
    ∧ dbCanGenerate (some ("u")) (some ⟨999, 10, true⟩) false emptyStore
        = Except.ok (true, emptyStore, ["get-quota"])
    ∧ dbCanGenerate (some ("u")) (some ⟨10, 10, false⟩) false emptyStore
        = Except.ok (false, emptyStore, ["get-quota"])
    ∧ dbCanGenerate (some ("u")) (some ⟨9, 10, false⟩) false emptyStore
        = Except.ok (true, emptyStore, ["get-quota"]) := by
  refine ⟨?_, rfl, rfl, rfl⟩
  intro userId remote rf st q st1 tr h
  unfold dbCanGenerate
  rw [h]
  cases hq : q.isPremium <;>
    by_cases hl : q.usedGenerations < q.limit <;>
      simp [hq, hl]

theorem C2_canGenerate_iff_witness :
    dbGetQuota (some ("u")) (some ⟨5, 10, false⟩) false emptyStore
      = Except.ok (⟨5, 10, false⟩, emptyStore, ["get-quota"])
    ∧ dbCanGenerate (some ("u")) (some ⟨5, 10, false⟩) false emptyStore
      = Except.ok ((⟨5, 10, false⟩ : UserQuota).isPremium
          || decide ((⟨5, 10, false⟩ : UserQuota).usedGenerations
              < (⟨5, 10, false⟩ : UserQuota).limit), emptyStore, ["get-quota"]) :=
  ⟨rfl,
    (C2_canGenerate_iff.1 (some ("u")) (some ⟨5, 10, false⟩) false emptyStore
      ⟨5, 10, false⟩ emptyStore ["get-quota"] rfl).1⟩

/-- C4: `getQuota` returns a remote hit verbatim for an identified user;
for an anonymous caller (no remote call issued), or on remote failure, it
returns the local counter with the free limit and `isPremium = false`; the
local counter defaults to 0 on an absent key or an unparseable value. -/
theorem C4_getQuota_policy :
    (∀ (uid : String) (q : UserQuota) (rf : Bool) (st : Store), uid ≠ "" →
      dbGetQuota (some uid) (some q) rf st
        = Except.ok (q, st, ["get-quota"]))
    ∧ (∀ (uid : String) (rf : Bool) (st : Store), uid ≠ "" →
      dbGetQuota (some uid) none rf st
        = Except.ok (⟨getLocalQuotaCount rf st, FREE_GENERATION_LIMIT, false⟩,
            st, ["get-quota"]))
    ∧ (∀ (remote : Option UserQuota) (rf : Bool) (st : Store),
      dbGetQuota none remote rf st
        = Except.ok (⟨getLocalQuotaCount rf st, FREE_GENERATION_LIMIT, false⟩,
            st, []))
    ∧ (∀ (st : Store), st.quota = none → getLocalQuotaCount false st = 0)
    ∧ (∀ (st : Store) (s : String), st.quota = some s → jsParseInt s = none →
        getLocalQuotaCount false st = 0)
    ∧ FREE_GENERATION_LIMIT = 10 := by
  refine ⟨?_, ?_, ?_, ?_, ?_, rfl⟩
  · intro uid q rf st huid
    unfold dbGetQuota
    rw [if_pos (by simp [jsTruthyStr, huid])]
  · intro uid rf st huid
    unfold dbGetQuota
    rw [if_pos (by simp [jsTruthyStr, huid])]
  · intro remote rf st
    unfold dbGetQuota
    rw [if_neg (by simp [jsTruthyStr])]
  · intro st h
    unfold getLocalQuotaCount
    rw [storageGet_false, h]
  · intro st s h hp
    have hred : getLocalQuotaCount false st
        = (if s = "" then 0 else
            match jsParseInt s with
            | none => 0
            | some parsed => parsed) := by
      unfold getLocalQuotaCount
      rw [storageGet_false, h]
    rw [hred]
    by_cases hs : s = ""
    · rw [if_pos hs]
    · rw [if_neg hs, hp]

theorem C4_getQuota_policy_witness :
    dbGetQuota (some ("google-abc")) (some ⟨3, 10, false⟩) false emptyStore
      = Except.ok (⟨3, 10, false⟩, emptyStore, ["get-quota"])
    ∧ dbGetQuota (some ("google-abc")) none false emptyStore
      = Except.ok (⟨getLocalQuotaCount false emptyStore,
          FREE_GENERATION_LIMIT, false⟩, emptyStore, ["get-quota"])
    ∧ getLocalQuotaCount false ⟨none, none, none, some ("abc")⟩ = 0 :=
  ⟨C4_getQuota_policy.1 ("google-abc") ⟨3, 10, false⟩ false emptyStore
      (by decide),
    C4_getQuota_policy.2.1 ("google-abc") false emptyStore (by decide),
    C4_getQuota_policy.2.2.2.2.1 ⟨none, none, none, some ("abc")⟩ ("abc")
      rfl (by decide)⟩

/-- C7: `getHistory` returns the remote result and overwrites the local
mirror only for a non-empty remote array; on `null`, a non-array value or
an empty array it returns the local snapshot and leaves the store
untouched. -/
theorem C7_getHistory_fallback :
    (∀ (l : List HistoryItem) (rf wf : Bool) (st : Store), l ≠ [] →
      dbGetHistory (some (RemoteList.arr l)) rf wf st
        = Except.ok (l,
            storageSet wf st { st with history := some (JsonOf.val l) },
            ["get-history"]))
    ∧ (∀ (rf wf : Bool) (st : Store),
      dbGetHistory none rf wf st
        = Except.ok (localGetHistory rf st, st, ["get-history"]))
    ∧ (∀ (rf wf : Bool) (st : Store),
      dbGetHistory (some RemoteList.notArray) rf wf st
        = Except.ok (localGetHistory rf st, st, ["get-history"]))
    ∧ (∀ (rf wf : Bool) (st : Store),
      dbGetHistory (some (RemoteList.arr [])) rf wf st
        = Except.ok (localGetHistory rf st, st, ["get-history"])) := by
  refine ⟨?_, fun rf wf st => rfl, fun rf wf st => rfl, fun rf wf st => rfl⟩
  intro l rf wf st hl
  have hred : dbGetHistory (some (RemoteList.arr l)) rf wf st
      = if l.length > 0 then
          Except.ok (l,
            storageSet wf st { st with history := some (JsonOf.val l) },
            ["get-history"])
        else Except.ok (localGetHistory rf st, st, ["get-history"]) := rfl
  rw [hred, if_pos (List.length_pos.mpr hl)]

theorem C7_getHistory_fallback_witness :
    dbGetHistory (some (RemoteList.arr [sampleItem ("a") 1])) false false
        emptyStore
      = Except.ok ([sampleItem ("a") 1],
          storageSet false emptyStore
            { emptyStore with
                history := some (JsonOf.val [sampleItem ("a") 1]) },
          ["get-history"]) :=
  C7_getHistory_fallback.1 [sampleItem ("a") 1] false false emptyStore
    (by decide)

/-- C10: the local fallback of the user read path returns the cached
profile exactly when the stored snapshot parses and carries the requested
id; it returns `null` on a read fault, an absent key, corrupt JSON or a
mismatched id — and `db.getUser` on a cloud miss never returns a profile
whose id differs from the requested one. -/
theorem C10_getUser_local_isolation :
    (∀ (id : String) (rf : Bool) (st : Store) (u : UserProfile),
      localGetUser id rf st = some u
        ↔ (storageGet rf st.user = some (JsonOf.val u) ∧ u.id = id))
    ∧ (∀ (id : String) (st : Store), localGetUser id true st = none)
    ∧ (∀ (id : String) (st : Store), st.user = none →
        localGetUser id false st = none)
    ∧ (∀ (id : String) (st : Store), st.user = some JsonOf.corrupt →
        localGetUser id false st = none)
    ∧ (∀ (id : String) (st : Store) (w : UserProfile),
        st.user = some (JsonOf.val w) → w.id ≠ id →
        localGetUser id false st = none)
    ∧ (∀ (id : String) (rf wf : Bool) (st : Store) (u : UserProfile)
        (st1 : Store) (tr : List String),
        dbGetUser id none rf wf st = Except.ok (some u, st1, tr) →
        u.id = id ∧ st1 = st) := by
  refine ⟨localGetUser_spec, ?_, ?_, ?_, ?_, ?_⟩
  · intro id st
    unfold localGetUser
    rw [storageGet_true]
  · intro id st h
    unfold localGetUser
    rw [storageGet_false, h]
  · intro id st h
    unfold localGetUser
    rw [storageGet_false, h]
  · intro id st w h hw
    have hred : localGetUser id false st
        = if w.id = id then some w else none := by
      unfold localGetUser
      rw [storageGet_false, h]
    rw [hred, if_neg hw]
  · intro id rf wf st u st1 tr h
    have h2 : (Except.ok (localGetUser id rf st, st, ["get-user"])
        : DbRes (Option UserProfile)) = Except.ok (some u, st1, tr) := h
    injection h2 with h3
    injection h3 with ha hb
    injection hb with hb hc
    subst hb
    exact ⟨((localGetUser_spec id rf st u).mp ha).2, rfl⟩

theorem C10_getUser_local_isolation_witness :
    sampleUser.id ≠ ("other")
    ∧ localGetUser ("other") false
        ⟨some (JsonOf.val sampleUser), none, none, none⟩ = none :=
  ⟨by decide,
    C10_getUser_local_isolation.2.2.2.2.1 ("other")
      ⟨some (JsonOf.val sampleUser), none, none, none⟩ sampleUser rfl
      (by decide)⟩

/-- C9: the derived user id is the provider tag, a hyphen, and the first 12
characters of the identity provider's subject; the derivation is a function
of subject and provider only, so repeated logins resolve to the same key. -/
theorem C9_generateStableId :
    (∀ (s p : String),
      (generateStableId s p).toList = p.toList ++ '-' :: s.toList.take 12)
    ∧ (∀ (s1 s2 p1 p2 : String), s1 = s2 → p1 = p2 →
        generateStableId s1 p1 = generateStableId s2 p2) := by
  constructor
  · intro s p
    show (p ++ "-" ++ String.mk (s.toList.take 12)).toList = _
    simp [String.toList]
  · intro s1 s2 p1 p2 h1 h2
    rw [h1, h2]

theorem C9_generateStableId_witness :
    (generateStableId ("abcdefghijklmnop") ("google")).toList
      = ("google").toList ++ '-' :: ("abcdefghijklmnop").toList.take 12
    ∧ generateStableId ("abcdefghijklmnop") ("google")
      = generateStableId ("abcdefghijklmnop") ("google") :=
  ⟨C9_generateStableId.1 ("abcdefghijklmnop") ("google"),
    C9_generateStableId.2 ("abcdefghijklmnop") ("abcdefghijklmnop")
      ("google") ("google") rfl rfl⟩

theorem syncQuota_existing (q : QuotaDB) (uid : String) (L now : Int)
    (row : QuotaRow) (huid : uid ≠ "") (hrow : q uid = some row) :
    (syncQuotaAction q uid L now).2
        = some ⟨max row.used_generations L, FREE_GENERATION_LIMIT,
            row.is_premium⟩
    ∧ (syncQuotaAction q uid L now).1 uid
        = some ⟨max row.used_generations L, row.is_premium,
            row.created_at⟩ := by
  have hred : syncQuotaAction q uid L now
      = (if max row.used_generations L > row.used_generations then
            quotaDbSet q uid
              { row with used_generations := max row.used_generations L }
          else q,
          some ⟨max row.used_generations L, FREE_GENERATION_LIMIT,
            row.is_premium⟩) := by
    unfold syncQuotaAction
    rw [if_neg huid, hrow]
  constructor
  · rw [hred]
  · rw [hred]
    by_cases hgt : max row.used_generations L > row.used_generations
    · rw [if_pos hgt]
      simp [quotaDbSet]
    · rw [if_neg hgt,
        show max row.used_generations L = row.used_generations by omega]
      exact hrow

theorem syncQuota_fresh (q : QuotaDB) (uid : String) (L now : Int)
    (huid : uid ≠ "") (hrow : q uid = none) :
    (syncQuotaAction q uid L now).2
        = some ⟨L, FREE_GENERATION_LIMIT, false⟩
    ∧ (syncQuotaAction q uid L now).1 uid = some ⟨L, false, now⟩ := by
  have hred : syncQuotaAction q uid L now
      = (quotaDbSet q uid ⟨L, false, now⟩,
          some ⟨L, FREE_GENERATION_LIMIT, false⟩) := by
    unfold syncQuotaAction
    rw [if_neg huid, hrow]
  rw [hred]
  exact ⟨rfl, by simp [quotaDbSet]⟩

theorem syncQuota_reapply (q : QuotaDB) (uid : String) (L L' now now' : Int)
    (huid : uid ≠ "") (hle : L' ≤ L) :
    (syncQuotaAction (syncQuotaAction q uid L now).1 uid L' now').2
        = (syncQuotaAction q uid L now).2
    ∧ (syncQuotaAction (syncQuotaAction q uid L now).1 uid L' now').1 uid
        = (syncQuotaAction q uid L now).1 uid := by
  match hq : q uid with
  | none =>
    obtain ⟨h2, h1⟩ := syncQuota_fresh q uid L now huid hq
    obtain ⟨g2, g1⟩ := syncQuota_existing ((syncQuotaAction q uid L now).1)
      uid L' now' ⟨L, false, now⟩ huid h1
    have hm : max ((⟨L, false, now⟩ : QuotaRow).used_generations) L' = L := by
      show max L L' = L
      omega
    constructor
    · rw [g2, h2, hm]
    · rw [g1, h1, hm]
  | some row =>
    obtain ⟨h2, h1⟩ := syncQuota_existing q uid L now row huid hq
    obtain ⟨g2, g1⟩ := syncQuota_existing ((syncQuotaAction q uid L now).1)
      uid L' now'
      ⟨max row.used_generations L, row.is_premium, row.created_at⟩ huid h1
    have hm : max ((⟨max row.used_generations L, row.is_premium,
          row.created_at⟩ : QuotaRow).used_generations) L'
        = max row.used_generations L := by
      show max (max row.used_generations L) L' = max row.used_generations L
      omega
    constructor
    · rw [g2, h2, hm]
    · rw [g1, h1, hm]

theorem syncQuota_mono (q : QuotaDB) (uid v : String) (L now : Int)
    (row : QuotaRow) (hrow : q v = some row) :
    ∃ row1, (syncQuotaAction q uid L now).1 v = some row1
      ∧ row.used_generations ≤ row1.used_generations := by
  by_cases huid : uid = ""
  · have hred : (syncQuotaAction q uid L now).1 = q := by
      unfold syncQuotaAction
      rw [if_pos huid]
    rw [hred]
    exact ⟨row, hrow, le_refl _⟩
  · match hq : q uid with
    | none =>
      have hred : (syncQuotaAction q uid L now).1
          = quotaDbSet q uid ⟨L, false, now⟩ := by
        unfold syncQuotaAction
        rw [if_neg huid, hq]
      rw [hred]
      by_cases hv : v = uid
      · subst hv
        rw [hrow] at hq
        exact absurd hq (by simp)
      · refine ⟨row, ?_, le_refl _⟩
        unfold quotaDbSet
        rw [if_neg hv]
        exact hrow
    | some row0 =>
      have hred : (syncQuotaAction q uid L now).1
          = if max row0.used_generations L > row0.used_generations then
              quotaDbSet q uid
                { row0 with
                    used_generations := max row0.used_generations L }
            else q := by
        unfold syncQuotaAction
        rw [if_neg huid, hq]
      rw [hred]
      by_cases hgt : max row0.used_generations L > row0.used_generations
      · rw [if_pos hgt]
        by_cases hv : v = uid
        · subst hv
          rw [hrow] at hq
          injection hq with he
          subst he
          refine ⟨{ row with used_generations := max row.used_generations L },
            ?_, le_max_left _ _⟩
          simp [quotaDbSet]
        · refine ⟨row, ?_, le_refl _⟩
          unfold quotaDbSet
          rw [if_neg hv]
          exact hrow
      · rw [if_neg hgt]
        exact ⟨row, hrow, le_refl _⟩

/-- C1: the `sync-quota` action returns `max(remoteCount, localCount)` and
stores that maximum (a fresh user stores and is returned the local count);
re-applying it with the same or a smaller local count changes neither the
response nor the stored row, the stored count never decreases under any
sync, and the client falls back to
`{usedGenerations: localCount, limit: FREE_GENERATION_LIMIT, isPremium: false}`
when the API call fails. -/
theorem C1_syncQuota_monotonic_merge :
    (∀ (q : QuotaDB) (uid : String) (L now : Int) (row : QuotaRow),
      uid ≠ "" → q uid = some row →
      (syncQuotaAction q uid L now).2
          = some ⟨max row.used_generations L, FREE_GENERATION_LIMIT,
              row.is_premium⟩
        ∧ (syncQuotaAction q uid L now).1 uid
          = some ⟨max row.used_generations L, row.is_premium,
              row.created_at⟩)
    ∧ (∀ (q : QuotaDB) (uid : String) (L now : Int),
      uid ≠ "" → q uid = none →
      (syncQuotaAction q uid L now).2
          = some ⟨L, FREE_GENERATION_LIMIT, false⟩
        ∧ (syncQuotaAction q uid L now).1 uid = some ⟨L, false, now⟩)
    ∧ (∀ (q : QuotaDB) (uid : String) (L L' now now' : Int),
      uid ≠ "" → L' ≤ L →
      (syncQuotaAction (syncQuotaAction q uid L now).1 uid L' now').2
          = (syncQuotaAction q uid L now).2
        ∧ (syncQuotaAction (syncQuotaAction q uid L now).1 uid L' now').1 uid
          = (syncQuotaAction q uid L now).1 uid)
    ∧ (∀ (q : QuotaDB) (uid v : String) (L now : Int) (row : QuotaRow),
      q v = some row →
      ∃ row1, (syncQuotaAction q uid L now).1 v = some row1
        ∧ row.used_generations ≤ row1.used_generations)
    ∧ (∀ (uid : String) (rf wf : Bool) (st : Store),
      dbSyncQuotaOnLogin uid none rf wf st
        = Except.ok (⟨getLocalQuotaCount rf st, FREE_GENERATION_LIMIT, false⟩,
            st, ["sync-quota"])) :=
  ⟨fun q uid L now row => syncQuota_existing q uid L now row,
    fun q uid L now => syncQuota_fresh q uid L now,
    fun q uid L L' now now' => syncQuota_reapply q uid L L' now now',
    fun q uid v L now row => syncQuota_mono q uid v L now row,
    fun uid rf wf st => rfl⟩

theorem C1_syncQuota_monotonic_merge_witness :
    ("google-x" : String) ≠ ""
    ∧ sampleQuotaDb ("google-x") = some ⟨7, false, 0⟩
    ∧ (syncQuotaAction sampleQuotaDb ("google-x") 9 5).2
        = some ⟨9, FREE_GENERATION_LIMIT, false⟩
    ∧ (syncQuotaAction sampleQuotaDb ("google-x") 9 5).1 ("google-x")
        = some ⟨9, false, 0⟩ :=
  ⟨by decide, rfl,
    (C1_syncQuota_monotonic_merge.1 sampleQuotaDb ("google-x") 9 5
      ⟨7, false, 0⟩ (by decide) rfl).1,
    (C1_syncQuota_monotonic_merge.1 sampleQuotaDb ("google-x") 9 5
      ⟨7, false, 0⟩ (by decide) rfl).2⟩

theorem getLocal_after_increment (st : Store) :
    getLocalQuotaCount false (incrementLocalQuotaCount false false st)
      = getLocalQuotaCount false st + 1 := by
  have hred : getLocalQuotaCount false (incrementLocalQuotaCount false false st)
      = (if jsNumToString (getLocalQuotaCount false st + 1) = "" then 0
         else
           match jsParseInt (jsNumToString (getLocalQuotaCount false st + 1))
             with
           | none => 0
           | some parsed => parsed) := rfl
  rw [hred, if_neg (jsNumToString_ne_empty _), jsParseInt_jsNumToString]

theorem anonIncrementStep_eq (st : Store) :
    anonIncrementStep st = incrementLocalQuotaCount false false st := rfl

theorem anonIncrementStep_iterate (N : Nat) :
    ∀ st : Store, getLocalQuotaCount false (anonIncrementStep^[N] st)
      = getLocalQuotaCount false st + N := by
  induction N with
  | zero =>
    intro st
    simp
  | succ n ih =>
    intro st
    rw [Function.iterate_succ_apply, ih (anonIncrementStep st),
      anonIncrementStep_eq, getLocal_after_increment]
    push_cast
    ring

/-- C3: starting from an absent or zero local counter and a non-faulting
store, N sequential anonymous `incrementQuota` calls leave the counter at
N; every call increments the counter whether or not an identity is given,
the remote `increment-quota` is issued exactly for a truthy `userId`, and
the resulting store does not depend on the remote outcome. -/
theorem C3_incrementQuota_local_counter :
    (∀ (N : Nat) (st : Store),
      st.quota = none ∨ st.quota = some ("0") →
      getLocalQuotaCount false (anonIncrementStep^[N] st) = (N : Int))
    ∧ (∀ st : Store,
      getLocalQuotaCount false (incrementLocalQuotaCount false false st)
        = getLocalQuotaCount false st + 1)
    ∧ (∀ (uid : Option String) (remote : Option Unit) (rf wf : Bool)
        (st : Store),
      dbIncrementQuota uid remote rf wf st
        = Except.ok ((), incrementLocalQuotaCount rf wf st,
            if jsTruthyStr uid then ["increment-quota"] else []))
    ∧ (∀ (uid : Option String) (r1 r2 : Option Unit) (rf wf : Bool)
        (st : Store),
      dbIncrementQuota uid r1 rf wf st = dbIncrementQuota uid r2 rf wf st)
    ∧ (∀ (remote : Option Unit) (rf wf : Bool) (st : Store),
      dbIncrementQuota none remote rf wf st
        = Except.ok ((), incrementLocalQuotaCount rf wf st, []))
    ∧ (∀ (uid : String) (remote : Option Unit) (rf wf : Bool) (st : Store),
      uid ≠ "" →
      dbIncrementQuota (some uid) remote rf wf st
        = Except.ok ((), incrementLocalQuotaCount rf wf st,
            ["increment-quota"])) := by
  refine ⟨?_, getLocal_after_increment, fun uid remote rf wf st => rfl,
    fun uid r1 r2 rf wf st => rfl, fun remote rf wf st => rfl, ?_⟩
  · intro N st h
    rw [anonIncrementStep_iterate N st]
    have h0 : getLocalQuotaCount false st = 0 := by
      rcases h with h | h
      · unfold getLocalQuotaCount
        rw [storageGet_false, h]
      · unfold getLocalQuotaCount
        rw [storageGet_false, h]
        decide
    rw [h0]
    omega
  · intro uid remote rf wf st huid
    have ht : jsTruthyStr (some uid) = true := by
      simp [jsTruthyStr, huid]
    unfold dbIncrementQuota
    rw [ht]
    rfl

theorem C3_incrementQuota_local_counter_witness :
    (emptyStore.quota = none ∨ emptyStore.quota = some ("0"))
    ∧ getLocalQuotaCount false (anonIncrementStep^[3] emptyStore)
        = (3 : Int) :=
  ⟨Or.inl rfl,
    C3_incrementQuota_local_counter.1 3 emptyStore (Or.inl rfl)⟩

theorem dbGetQuota_resolves (uid : Option String) (remote : Option UserQuota)
    (rf : Bool) (st : Store) :
    ∃ out, dbGetQuota uid remote rf st = Except.ok out := by
  cases hj : jsTruthyStr uid
  · exact ⟨_, by unfold dbGetQuota; rw [hj]; rfl⟩
  · match remote with
    | none => exact ⟨_, by unfold dbGetQuota; rw [hj]; rfl⟩
    | some q => exact ⟨_, by unfold dbGetQuota; rw [hj]; rfl⟩

/-- C8: storage faults never escape the `storage` wrapper (a faulted read
yields `null`, a faulted write leaves the store as it was), every `db`
operation resolves under all storage faults and remote outcomes, and
`createCheckoutSession` alone can reject — on a non-ok response carrying an
API error message it rejects with exactly that message. -/
theorem C8_error_containment :
    (∃ f st, ∀ out, dbCreateCheckoutSession f st ≠ Except.ok out)
    ∧ (∀ (status : Nat) (body : CheckoutBody) (m : String) (st : Store),
        body.error = some m → m ≠ "" →
        dbCreateCheckoutSession
          (CheckoutFetch.resp false status (Except.ok body)) st
          = Except.error m)
    ∧ (∀ (α : Type) (slot : Option α),
        storageGet true slot = none ∧ storageGet false slot = slot)
    ∧ (∀ old updated : Store,
        storageSet true old updated = old
          ∧ storageSet false old updated = updated)
    ∧ (∀ st : Store, ∃ out, dbInit st = Except.ok out)
    ∧ (∀ st : Store, ∃ out, dbLogEvent st = Except.ok out)
    ∧ (∀ (u : UserProfile) (remote : Option Unit) (wf : Bool) (st : Store),
        ∃ out, dbSaveUser u remote wf st = Except.ok out)
    ∧ (∀ (id : String) (remote : Option UserProfile) (rf wf : Bool)
        (st : Store), ∃ out, dbGetUser id remote rf wf st = Except.ok out)
    ∧ (∀ (remote : Option (RemoteList HistoryItem)) (rf wf : Bool)
        (st : Store), ∃ out, dbGetHistory remote rf wf st = Except.ok out)
    ∧ (∀ (item : HistoryItem) (remote : Option Unit) (rf wf : Bool)
        (st : Store),
        ∃ out, dbSaveHistoryItem item remote rf wf st = Except.ok out)
    ∧ (∀ (remote : Option (RemoteList BriefProfile)) (rf wf : Bool)
        (st : Store), ∃ out, dbGetProfiles remote rf wf st = Except.ok out)
    ∧ (∀ (p : BriefProfile) (remote : Option Unit) (rf wf : Bool)
        (st : Store), ∃ out, dbSaveProfile p remote rf wf st = Except.ok out)
    ∧ (∀ (id : String) (remote : Option Unit) (rf wf : Bool) (st : Store),
        ∃ out, dbDeleteProfile id remote rf wf st = Except.ok out)
    ∧ (∀ (uid : Option String) (remote : Option UserQuota) (rf : Bool)
        (st : Store), ∃ out, dbGetQuota uid remote rf st = Except.ok out)
    ∧ (∀ (uid : Option String) (remote : Option UserQuota) (rf : Bool)
        (st : Store), ∃ out, dbCanGenerate uid remote rf st = Except.ok out)
    ∧ (∀ (uid : Option String) (remote : Option Unit) (rf wf : Bool)
        (st : Store),
        ∃ out, dbIncrementQuota uid remote rf wf st = Except.ok out)
    ∧ (∀ (uid : String) (remote : Option UserQuota) (rf wf : Bool)
        (st : Store),
        ∃ out, dbSyncQuotaOnLogin uid remote rf wf st = Except.ok out)
    ∧ (∀ (remote : Option SubscriptionStatus) (st : Store),
        ∃ out, dbCheckSubscription remote st = Except.ok out) := by
  refine ⟨⟨CheckoutFetch.throws ("network"), emptyStore,
      fun out h => by cases h⟩, ?_,
    fun α slot => ⟨rfl, rfl⟩, fun old updated => ⟨rfl, rfl⟩,
    fun st => ⟨_, rfl⟩, fun st => ⟨_, rfl⟩,
    fun u remote wf st => ⟨_, rfl⟩, ?_, ?_,
    fun item remote rf wf st => ⟨_, rfl⟩, ?_,
    fun p remote rf wf st => ⟨_, rfl⟩,
    fun id remote rf wf st => ⟨_, rfl⟩,
    dbGetQuota_resolves, ?_,
    fun uid remote rf wf st => ⟨_, rfl⟩, ?_, ?_⟩
  · intro status body m st hbody hm
    have hred : dbCreateCheckoutSession
        (CheckoutFetch.resp false status (Except.ok body)) st
        = Except.error (jsOrDefault body.error
            ("Checkout failed (" ++ toString status ++ ")")) := rfl
    have h2 : jsOrDefault (some m)
        ("Checkout failed (" ++ toString status ++ ")") = m := by
      have h3 : jsOrDefault (some m)
          ("Checkout failed (" ++ toString status ++ ")")
          = if m = "" then ("Checkout failed (" ++ toString status ++ ")")
            else m := rfl
      rw [h3, if_neg hm]
    rw [hred, hbody, h2]
  · intro id remote rf wf st
    match remote with
    | none => exact ⟨_, rfl⟩
    | some u => exact ⟨_, rfl⟩
  · intro remote rf wf st
    match remote with
    | none => exact ⟨_, rfl⟩
    | some RemoteList.notArray => exact ⟨_, rfl⟩
    | some (RemoteList.arr l) =>
      have hred : dbGetHistory (some (RemoteList.arr l)) rf wf st
          = if l.length > 0 then
              Except.ok (l,
                storageSet wf st { st with history := some (JsonOf.val l) },
                ["get-history"])
            else Except.ok (localGetHistory rf st, st, ["get-history"]) := rfl
      by_cases hl : l.length > 0
      · exact ⟨_, by rw [hred, if_pos hl]⟩
      · exact ⟨_, by rw [hred, if_neg hl]⟩
  · intro remote rf wf st
    match remote with
    | none => exact ⟨_, rfl⟩
    | some RemoteList.notArray => exact ⟨_, rfl⟩
    | some (RemoteList.arr l) =>
      have hred : dbGetProfiles (some (RemoteList.arr l)) rf wf st
          = if l.length > 0 then
              Except.ok (l,
                storageSet wf st { st with profiles := some (JsonOf.val l) },
                ["get-profiles"])
            else Except.ok (localGetProfiles rf st, st, ["get-profiles"]) := rfl
      by_cases hl : l.length > 0
      · exact ⟨_, by rw [hred, if_pos hl]⟩
      · exact ⟨_, by rw [hred, if_neg hl]⟩
  · intro uid remote rf st
    obtain ⟨out, h⟩ := dbGetQuota_resolves uid remote rf st
    obtain ⟨q, st1, tr⟩ := out
    have hred : dbCanGenerate uid remote rf st
        = if q.isPremium then Except.ok (true, st1, tr)
          else Except.ok (decide (q.usedGenerations < q.limit), st1, tr) := by
      unfold dbCanGenerate
      rw [h]
    cases hp : q.isPremium
    · exact ⟨_, by rw [hred, hp]; rfl⟩
    · exact ⟨_, by rw [hred, hp]; rfl⟩
  · intro uid remote rf wf st
    match remote with
    | none => exact ⟨_, rfl⟩
    | some r => exact ⟨_, rfl⟩
  · intro remote st
    match remote with
    | none => exact ⟨_, rfl⟩
    | some r => exact ⟨_, rfl⟩

theorem C8_error_containment_witness :
    (⟨some ("Card declined"), none⟩ : CheckoutBody).error
        = some ("Card declined")
    ∧ ("Card declined" : String) ≠ ""
    ∧ dbCreateCheckoutSession
        (CheckoutFetch.resp false 500 (Except.ok ⟨some ("Card declined"), none⟩))
        emptyStore
      = Except.error ("Card declined") :=
  ⟨rfl, by decide,
    C8_error_containment.2.1 500 ⟨some ("Card declined"), none⟩
      ("Card declined") emptyStore rfl (by decide)⟩

theorem localGetHistory_save (item : HistoryItem) (st : Store) :
    localGetHistory false (localSaveHistoryItem item false false st)
      = histUpdate item (localGetHistory false st) := rfl

theorem histAfter_fold (items : List HistoryItem) :
    ∀ st : Store, localGetHistory false (histAfter items st)
      = histFold items (localGetHistory false st) := by
  induction items with
  | nil => intro st; rfl
  | cons x xs ih =>
    intro st
    show localGetHistory false
        (histAfter xs (localSaveHistoryItem x false false st))
      = histFold xs (histUpdate x (localGetHistory false st))
    rw [ih (localSaveHistoryItem x false false st), localGetHistory_save]

theorem histUpdate_nodup (item : HistoryItem) (cur : List HistoryItem)
    (h : (cur.map HistoryItem.id).Nodup) :
    ((histUpdate item cur).map HistoryItem.id).Nodup := by
  unfold histUpdate
  refine List.Nodup.sublist
    ((List.take_sublist MAX_LOCAL_HISTORY_ITEMS _).map HistoryItem.id) ?_
  rw [List.map_cons]
  refine List.nodup_cons.mpr ⟨?_, ?_⟩
  · intro hmem
    obtain ⟨j, hj, hjid⟩ := List.mem_map.mp hmem
    obtain ⟨_, hne⟩ := List.mem_filter.mp hj
    exact absurd hjid (bne_iff_ne.mp hne)
  · exact h.sublist ((List.filter_sublist cur).map HistoryItem.id)

theorem histUpdate_length (item : HistoryItem) (cur : List HistoryItem) :
    (histUpdate item cur).length ≤ MAX_LOCAL_HISTORY_ITEMS :=
  List.length_take_le _ _

theorem histFold_nodup (items : List HistoryItem) :
    ∀ cur : List HistoryItem, (cur.map HistoryItem.id).Nodup →
      ((histFold items cur).map HistoryItem.id).Nodup := by
  induction items with
  | nil => intro cur h; exact h
  | cons x xs ih =>
    intro cur h
    exact ih (histUpdate x cur) (histUpdate_nodup x cur h)

theorem histFold_length (items : List HistoryItem) :
    ∀ cur : List HistoryItem, cur.length ≤ MAX_LOCAL_HISTORY_ITEMS →
      (histFold items cur).length ≤ MAX_LOCAL_HISTORY_ITEMS := by
  induction items with
  | nil => intro cur h; exact h
  | cons x xs ih =>
    intro cur h
    exact ih (histUpdate x cur) (histUpdate_length x cur)

theorem histUpdate_replace (item : HistoryItem) (cur : List HistoryItem) :
    item ∈ histUpdate item cur
    ∧ ∀ j ∈ histUpdate item cur, j.id = item.id → j = item := by
  constructor
  · unfold histUpdate
    rw [show MAX_LOCAL_HISTORY_ITEMS = 49 + 1 from rfl,
      List.take_succ_cons]
    exact List.mem_cons_self _ _
  · intro j hj hjid
    unfold histUpdate at hj
    have hj2 := (List.take_sublist _ _).subset hj
    rcases List.mem_cons.mp hj2 with he | hmem
    · exact he
    · obtain ⟨_, hne⟩ := List.mem_filter.mp hmem
      exact absurd hjid (bne_iff_ne.mp hne)

theorem take_append_take {α : Type} (n : Nat) (a l : List α) :
    (a ++ l.take n).take n = (a ++ l).take n := by
  rw [List.take_append_eq_append_take, List.take_append_eq_append_take,
    List.take_take, Nat.min_eq_left (Nat.sub_le n a.length)]

theorem histFold_fresh (items : List HistoryItem) :
    ∀ cur : List HistoryItem, ((items.map HistoryItem.id).Nodup) →
      (∀ i ∈ items, i.id ∉ cur.map HistoryItem.id) →
      cur.length ≤ MAX_LOCAL_HISTORY_ITEMS →
      histFold items cur
        = (items.reverse ++ cur).take MAX_LOCAL_HISTORY_ITEMS := by
  induction items with
  | nil =>
    intro cur h1 h2 h3
    show cur = (([] : List HistoryItem).reverse ++ cur).take
      MAX_LOCAL_HISTORY_ITEMS
    rw [List.reverse_nil, List.nil_append, List.take_of_length_le h3]
  | cons x xs ih =>
    intro cur h1 h2 h3
    rw [List.map_cons] at h1
    obtain ⟨hxid, hxs⟩ := List.nodup_cons.mp h1
    have hxfresh : x.id ∉ cur.map HistoryItem.id :=
      h2 x (List.mem_cons_self _ _)
    have hupd : histUpdate x cur
        = (x :: cur).take MAX_LOCAL_HISTORY_ITEMS := by
      unfold histUpdate
      have hfe : cur.filter (fun i => i.id != x.id) = cur :=
        List.filter_eq_self.mpr (fun a ha => bne_iff_ne.mpr (fun he =>
          hxfresh (he ▸ List.mem_map_of_mem HistoryItem.id ha)))
      rw [hfe]
    have hstep : histFold (x :: xs) cur = histFold xs (histUpdate x cur) := rfl
    rw [hstep, hupd]
    rw [ih ((x :: cur).take MAX_LOCAL_HISTORY_ITEMS) hxs ?fresh ?len]
    case fresh =>
      intro i hi hmem
      have hsub := ((List.take_sublist MAX_LOCAL_HISTORY_ITEMS
        (x :: cur)).map HistoryItem.id).subset hmem
      rw [List.map_cons] at hsub
      rcases List.mem_cons.mp hsub with he | hmem2
      · exact hxid (he ▸ List.mem_map_of_mem HistoryItem.id hi)
      · exact h2 i (List.mem_cons_of_mem x hi) hmem2
    case len => exact List.length_take_le _ _
    rw [take_append_take, List.reverse_cons, List.append_assoc]
    rfl

/-- C6: from an empty store, any fault-free sequence of `saveHistoryItem`
calls keeps the local history free of duplicate ids and at most 50 long;
a save replaces (never duplicates) the item carrying its id; and writing
51 distinct items in increasing-timestamp order retains exactly the newest
50, ordered newest first. -/
theorem C6_history_retention :
    (∀ items : List HistoryItem,
      ((localGetHistory false (histAfter items emptyStore)).map
          HistoryItem.id).Nodup
      ∧ (localGetHistory false (histAfter items emptyStore)).length
          ≤ MAX_LOCAL_HISTORY_ITEMS)
    ∧ (∀ (st : Store) (item old : HistoryItem),
      item ∈ localGetHistory false (localSaveHistoryItem item false false st)
      ∧ (old.id = item.id → old ≠ item →
        old ∉ localGetHistory false
          (localSaveHistoryItem item false false st)))
    ∧ (∀ items : List HistoryItem, items.length = 51 →
      ((items.map HistoryItem.id).Nodup) →
      localGetHistory false (histAfter items emptyStore)
          = items.reverse.take MAX_LOCAL_HISTORY_ITEMS
      ∧ (localGetHistory false (histAfter items emptyStore)).length = 50
      ∧ (items.Pairwise (fun a b => a.timestamp < b.timestamp) →
        localGetHistory false (histAfter items emptyStore)
            = (items.drop 1).reverse
        ∧ (localGetHistory false (histAfter items emptyStore)).Pairwise
            (fun a b => b.timestamp < a.timestamp))) := by
  refine ⟨?_, ?_, ?_⟩
  · intro items
    rw [histAfter_fold items emptyStore]
    exact ⟨histFold_nodup items [] (by simp),
      histFold_length items [] (by simp)⟩
  · intro st item old
    rw [localGetHistory_save]
    exact ⟨(histUpdate_replace item _).1,
      fun hid hne hmem =>
        hne ((histUpdate_replace item _).2 old hmem hid)⟩
  · intro items hlen hnodup
    have hmain : localGetHistory false (histAfter items emptyStore)
        = items.reverse.take MAX_LOCAL_HISTORY_ITEMS := by
      rw [histAfter_fold items emptyStore]
      show histFold items [] = _
      rw [histFold_fresh items [] hnodup (by simp) (by simp),
        List.append_nil]
    refine ⟨hmain, ?_, ?_⟩
    · rw [hmain, List.length_take, List.length_reverse, hlen]
      decide
    · intro hts
      have hdrop : items.reverse.take MAX_LOCAL_HISTORY_ITEMS
          = (items.drop 1).reverse := by
        rw [List.take_reverse, hlen]
        rfl
      refine ⟨by rw [hmain, hdrop], ?_⟩
      rw [hmain, hdrop, List.pairwise_reverse]
      exact hts.sublist (List.drop_sublist 1 items)

theorem C6_history_retention_witness :
    fiftyOneItems.length = 51
    ∧ ((fiftyOneItems.map HistoryItem.id).Nodup)
    ∧ localGetHistory false (histAfter fiftyOneItems emptyStore)
        = fiftyOneItems.reverse.take MAX_LOCAL_HISTORY_ITEMS
    ∧ (localGetHistory false (histAfter fiftyOneItems emptyStore)).length
        = 50 :=
  ⟨by decide, by decide,
    (C6_history_retention.2.2 fiftyOneItems (by decide) (by decide)).1,
    (C6_history_retention.2.2 fiftyOneItems (by decide) (by decide)).2.1⟩

end Hooka
